import Mathlib

/-!
# Boost.ScopeGuard: a shallow embedding of `include/boost/scope_guard.hpp`

The header defines one capture cell (`detail::scope_guard::callback`), a
non-copyable holder (`detail::scope_guard::base`) and three guards whose
destructors decide whether the cell is invoked:

* `scope_guard`          invokes it always,
* `scope_guard_failure`  invokes it when `std::uncaught_exceptions()` grew
  since construction (`out > in`),
* `scope_guard_success`  invokes it when the count is unchanged (`out == in`).

Conventions of the embedding

* Program memory is a map from locations to values; a `World` is that memory
  together with a ghost trace of the capture cells that have been invoked,
  in order.  Callables cannot touch the ghost trace.
* A C++ function call ends in one of three ways: it completes, it exits by
  an exception, or the program is terminated (`std::terminate`, reached when
  an exception tries to leave a `noexcept` function).
* `std::uncaught_exceptions()` belongs to the host runtime.  Destructors
  receive its current value as an argument of type `Int` (the source stores
  it in an `int`).
* Destructors of the captured objects themselves (the callable, the stored
  arguments) are assumed to have no observable effect.
-/

namespace boost

/-! ## Host model: memory, outcomes, `noexcept` -/

/-- Program state: the memory the callables act on, and the ghost trace of
invoked capture cells (identified by the ghost `id` of the cell). -/
structure World (V : Type) where
  mem : Nat → V
  invoked : List Nat

/-- How a call ends. -/
inductive Outcome (E V : Type) where
  | done (w : World V)
  | raised (e : E) (w : World V)
  | terminated (w : World V)

/-- State in which a call ended. -/
def Outcome.world {E V : Type} : Outcome E V → World V
  | .done w => w
  | .raised _ w => w
  | .terminated w => w

/-- Exception by which a call exited, if it did. -/
def Outcome.exception {E V : Type} : Outcome E V → Option E
  | .raised e _ => some e
  | _ => none

/-- Effect of a `noexcept(flag)` specification on the function body's outcome:
when `flag` holds, an exception leaving the body calls `std::terminate`. -/
def enforce_noexcept {E V : Type} (flag : Bool) (o : Outcome E V) : Outcome E V :=
  if flag then
    match o with
    | .raised _ w => .terminated w
    | o => o
  else o

/-- The macro `BOOST_UNLIKELY` of Boost.Config is a branch-prediction hint; it
evaluates to its argument. -/
def BOOST_UNLIKELY (c : Bool) : Bool := c

/-- The macro `BOOST_LIKELY` of Boost.Config is a branch-prediction hint; it
evaluates to its argument. -/
def BOOST_LIKELY (c : Bool) : Bool := c

/-! ## Capture slots and callables -/

/-- One element of `std::tuple<Args...>`: an owned object (element type `T`)
or a reference to an entity living in memory (element type `T&`). -/
inductive Slot (V : Type) where
  | value (v : V)
  | ref (loc : Nat)

/-- Value the action observes through a slot when it is invoked in memory `m`. -/
def Slot.read {V : Type} (m : Nat → V) : Slot V → V
  | .value v => v
  | .ref loc => m loc

/-- A callable `Fn`.  `body` is what `std::invoke(fn, args...)` does to memory,
together with the exception it throws, if any.  `nothrow` is the value of
`noexcept(std::invoke(fn, args...))`. -/
structure Callable (E V : Type) where
  body : List (Slot V) → (Nat → V) → (Nat → V) × Option E
  nothrow : Bool

/-- Evaluation of `std::invoke(fn, args...)`. -/
def Callable.invoke {E V : Type} (fn : Callable E V) (args : List (Slot V))
    (w : World V) : Outcome E V :=
  enforce_noexcept fn.nothrow
    (match fn.body args w.mem with
     | (m, none) => .done { w with mem := m }
     | (m, some e) => .raised e { w with mem := m })

namespace detail.scope_guard

/-- Source `apply_impl`: `std::invoke(fn, std::get<I>(args)...)`, with the
exception specification of that expression. -/
def apply_impl {E V : Type} (fn : Callable E V) (args : List (Slot V))
    (I : List Nat) (w : World V) : Outcome E V :=
  enforce_noexcept fn.nothrow (fn.invoke (I.filterMap fun i => args[i]?) w)

/-- Source `apply`: `apply_impl` with `std::make_index_sequence<tuple_size>`. -/
def apply {E V : Type} (fn : Callable E V) (args : List (Slot V))
    (w : World V) : Outcome E V :=
  enforce_noexcept fn.nothrow (apply_impl fn args (List.range args.length) w)

/-- Source `class callback`: the callable and the tuple of stored arguments.
`id` is ghost: it identifies the cell in the invocation trace. -/
structure callback (E V : Type) where
  id : Nat
  fn : Callable E V
  args : List (Slot V)

/-- Value of `noexcept(callback())`, the exception specification of
`callback::operator()`. -/
def callback.call_noexcept {E V : Type} (cb : callback E V) : Bool :=
  cb.fn.nothrow

/-- Source `callback::operator()`: `(void)apply(fn, std::move(args))`.  The ghost
trace records the invocation before the callable runs. -/
def callback.call {E V : Type} (cb : callback E V) (w : World V) : Outcome E V :=
  enforce_noexcept cb.call_noexcept
    (apply cb.fn cb.args { w with invoked := w.invoked ++ [cb.id] })

/-- Source `class base`: holds the capture cell.  `nothrow_destructible` is the
value of `std::is_nothrow_destructible_v<base_type>`, a property of the
captured types. -/
structure base (E V : Type) where
  callback : callback E V
  nothrow_destructible : Bool

end detail.scope_guard

open detail.scope_guard

/-- Source `struct scope_guard`. -/
structure scope_guard (E V : Type) extends base E V

/-- Source `struct scope_guard_failure`; `in_` is the member `in`. -/
structure scope_guard_failure (E V : Type) extends base E V where
  in_ : Int

/-- Source `struct scope_guard_success`; `in_` is the member `in`. -/
structure scope_guard_success (E V : Type) extends base E V where
  in_ : Int

/-- Source `~scope_guard()`: `{ this_type::callback(); }`. -/
def scope_guard.destroy {E V : Type} (g : scope_guard E V) (w : World V) :
    Outcome E V :=
  enforce_noexcept (g.callback.call_noexcept && g.nothrow_destructible)
    (g.callback.call w)

/-- Source `~scope_guard_failure()`; `uncaught_exceptions` is the value
`std::uncaught_exceptions()` returns when the destructor runs. -/
def scope_guard_failure.destroy {E V : Type} (g : scope_guard_failure E V)
    (uncaught_exceptions : Int) (w : World V) : Outcome E V :=
  enforce_noexcept (g.callback.call_noexcept && g.nothrow_destructible)
    (let out := uncaught_exceptions
     if BOOST_UNLIKELY (decide (out > g.in_)) then g.callback.call w else .done w)

/-- Source `~scope_guard_success()`; `uncaught_exceptions` is the value
`std::uncaught_exceptions()` returns when the destructor runs. -/
def scope_guard_success.destroy {E V : Type} (g : scope_guard_success E V)
    (uncaught_exceptions : Int) (w : World V) : Outcome E V :=
  enforce_noexcept (g.callback.call_noexcept && g.nothrow_destructible)
    (let out := uncaught_exceptions
     if BOOST_LIKELY (out == g.in_) then g.callback.call w else .done w)

/-- Default member initializer `int in = std::uncaught_exceptions();` of
`scope_guard_failure`, run when the guard is constructed around `b`. -/
def scope_guard_failure.construct {E V : Type} (b : base E V)
    (uncaught_exceptions : Int) : scope_guard_failure E V :=
  { b with in_ := uncaught_exceptions }

/-- Default member initializer `int in = std::uncaught_exceptions();` of
`scope_guard_success`, run when the guard is constructed around `b`. -/
def scope_guard_success.construct {E V : Type} (b : base E V)
    (uncaught_exceptions : Int) : scope_guard_success E V :=
  { b with in_ := uncaught_exceptions }

/-- Construction of a `scope_guard` around `b` (inherited constructor; the
struct has no member of its own). -/
def scope_guard.construct {E V : Type} (b : base E V) : scope_guard E V :=
  { b with }

/-! ## Guards of any kind, scopes and stack unwinding (host model) -/

/-- A guard object of one of the three kinds. -/
inductive Guard (E V : Type) where
  | always (g : scope_guard E V)
  | on_failure (g : scope_guard_failure E V)
  | on_success (g : scope_guard_success E V)

/-- The three guard templates. -/
inductive Kind where
  | always
  | on_failure
  | on_success
  deriving DecidableEq

/-- Construction of a guard of the given kind around `b` while
`std::uncaught_exceptions()` returns `uncaught_exceptions`. -/
def Guard.construct {E V : Type} (k : Kind) (b : base E V)
    (uncaught_exceptions : Int) : Guard E V :=
  match k with
  | .always => .always (scope_guard.construct b)
  | .on_failure => .on_failure (scope_guard_failure.construct b uncaught_exceptions)
  | .on_success => .on_success (scope_guard_success.construct b uncaught_exceptions)

/-- The destructor of the guard, run while `std::uncaught_exceptions()` returns
`uncaught_exceptions`. -/
def Guard.destroy {E V : Type} (g : Guard E V) (uncaught_exceptions : Int)
    (w : World V) : Outcome E V :=
  match g with
  | .always g => g.destroy w
  | .on_failure g => g.destroy uncaught_exceptions w
  | .on_success g => g.destroy uncaught_exceptions w

/-- The capture cell the guard holds. -/
def Guard.cell {E V : Type} : Guard E V → callback E V
  | .always g => g.callback
  | .on_failure g => g.callback
  | .on_success g => g.callback

/-- Whether the destruction policy of the guard invokes the cell when
`std::uncaught_exceptions()` returns `out`: the condition of the `if` in the
destructor (absent in `~scope_guard`). -/
def Guard.fires {E V : Type} (g : Guard E V) (out : Int) : Bool :=
  match g with
  | .always _ => true
  | .on_failure g => BOOST_UNLIKELY (decide (out > g.in_))
  | .on_success g => BOOST_LIKELY (out == g.in_)

/-- Host rule for the automatic objects of a scope that is being left: they are
destroyed one after the other (`gs` is in destruction order).  `pending` is
the exception by which the scope is being left, if any, and `depth` the
current value of `std::uncaught_exceptions()`.  A destructor that exits by an
exception during a normal exit starts stack unwinding (one more uncaught
exception, the remaining objects are still destroyed); one that does so during
stack unwinding terminates the program. -/
def destroy_all {E V : Type} :
    List (Guard E V) → Option E → Int → World V → Outcome E V
  | [], none, _, w => .done w
  | [], some e, _, w => .raised e w
  | g :: gs, pending, depth, w =>
    match g.destroy depth w with
    | .done w1 => destroy_all gs pending depth w1
    | .terminated w1 => .terminated w1
    | .raised e1 w1 =>
      match pending with
      | none => destroy_all gs (some e1) (depth + 1) w1
      | some _ => .terminated w1

/-- Leaving a scope whose guards were declared in the order `declared`: automatic
objects are destroyed in the reverse order of their declaration. -/
def exit_scope {E V : Type} (declared : List (Guard E V)) (pending : Option E)
    (depth : Int) (w : World V) : Outcome E V :=
  destroy_all declared.reverse pending depth w

/-- Stack unwinding by the exception `e` through nested scopes, innermost first,
each given by its guards in declaration order. -/
def unwind {E V : Type} :
    List (List (Guard E V)) → E → Int → World V → Outcome E V
  | [], e, _, w => .raised e w
  | scope :: outer, e, depth, w =>
    match exit_scope scope (some e) depth w with
    | .raised e1 w1 => unwind outer e1 depth w1
    | o => o

/-- What happens to exceptions inside a scope, as far as
`std::uncaught_exceptions()` is concerned. -/
inductive Event where
  | raise
  | caught
  deriving DecidableEq

/-- Host runtime: the value of `std::uncaught_exceptions()` after the events
`evs`, starting from `depth`.  A raise adds one uncaught exception, entering a
handler removes one. -/
def uncaught_after (depth : Int) (evs : List Event) : Int :=
  evs.foldl (fun d ev => match ev with
    | .raise => d + 1
    | .caught => d - 1) depth

/-- Number of times the cell `id` was invoked between the worlds `w0` and `w1`
(ghost). -/
def calls_between {V : Type} (w0 w1 : World V) (id : Nat) : Nat :=
  w1.invoked.count id - w0.invoked.count id

/-! ## Types, deduction guides and capture -/

/-- Fragment of the C++ object types: named class or scalar types, `const`
qualification, `std::reference_wrapper<T>`, arrays and pointers. -/
inductive ValueType where
  | named (n : Nat)
  | const (t : ValueType)
  | reference_wrapper (t : ValueType)
  | array (t : ValueType)
  | pointer (t : ValueType)
  deriving DecidableEq

/-- A type as deduced for a forwarding reference or written as a template
argument: an object type or a reference to one. -/
inductive CppType where
  | val (t : ValueType)
  | lref (t : ValueType)
  | rref (t : ValueType)
  deriving DecidableEq

/-- Standard `std::remove_reference_t` on the fragment. -/
def remove_reference_t : CppType → ValueType
  | .val t => t
  | .lref t => t
  | .rref t => t

/-- Standard `std::decay_t` on the fragment: the reference is removed, an array
becomes a pointer to its element, otherwise the top-level `const` is removed. -/
def decay_t (T : CppType) : ValueType :=
  match remove_reference_t T with
  | .array u => .pointer u
  | .const u => u
  | u => u

namespace detail.scope_guard

/-- Source `struct unwrap`: the primary template yields `T`, the specialization
for `std::reference_wrapper<T>` yields `T&`. -/
def unwrap : CppType → CppType
  | .val (.reference_wrapper T) => .lref T
  | T => T

/-- Source `unwrap_decay_t<T>`: `unwrap<std::decay_t<T>>::type`. -/
def unwrap_decay_t (T : CppType) : CppType :=
  unwrap (.val (decay_t T))

end detail.scope_guard

/-- The deduction guides `scope_guard(Params&&...) ->
scope_guard<unwrap_decay_t<Params>...>` (the same for the other two guards):
the stored parameter list deduced from the argument types. -/
def deduction_guide (Params : List CppType) : List CppType :=
  Params.map unwrap_decay_t

/-- What an argument expression denotes: an entity in memory (the object an
lvalue names, or the object a `std::reference_wrapper` refers to), or a
temporary holding a value. -/
inductive Operand (V : Type) where
  | entity (loc : Nat)
  | temporary (v : V)

/-- An argument at the construction site: the type deduced for its forwarding
reference and what it denotes. -/
structure Argument (V : Type) where
  type : CppType
  denotes : Operand V

/-- Value of the argument in memory `m`. -/
def Argument.value {V : Type} (a : Argument V) (m : Nat → V) : V :=
  match a.denotes with
  | .entity loc => m loc
  | .temporary v => v

/-- Initialization of one element of `std::tuple<Args...>` from the forwarded
argument, in memory `m`: an element of type `T&` is bound to the entity, an
element of object type is copy- or move-constructed from the argument.  A
`T&` cannot be bound to a temporary and elements of type `T&&` are never
deduced by the guides: these yield `none`. -/
def capture {V : Type} (slot : CppType) (a : Argument V) (m : Nat → V) :
    Option (Slot V) :=
  match slot, a.denotes with
  | .lref _, .entity loc => some (.ref loc)
  | .lref _, .temporary _ => none
  | .rref _, _ => none
  | .val _, _ => some (.value (a.value m))

/-- Initialization `args(std::forward<Args_>(args)...)` of the tuple whose
element types are `slots`. -/
def capture_all {V : Type} : List CppType → List (Argument V) → (Nat → V) →
    Option (List (Slot V))
  | [], [], _ => some []
  | slot :: slots, a :: as, m =>
    match capture slot a m, capture_all slots as m with
    | some s, some ss => some (s :: ss)
    | _, _ => none
  | _, _, _ => none

/-- Construction of the capture cell `callback<Fn, Args...>` from the callable
and the arguments, in memory `m`; `Args` is the list of element types. -/
def detail.scope_guard.callback.construct {E V : Type} (id : Nat)
    (fn : Callable E V) (Args : List CppType) (args : List (Argument V))
    (m : Nat → V) : Option (callback E V) :=
  match capture_all Args args m with
  | some slots => some { id := id, fn := fn, args := slots }
  | none => none

/-! ## Constructor constraints and exception specifications -/

/-- The standard type traits the constructors consult, for single-argument
construction of `T` from `U`. -/
structure Traits where
  is_constructible : CppType → CppType → Bool
  is_nothrow_constructible : CppType → CppType → Bool

/-- The binary fold `(init && ... && es)`. -/
def fold_and (init : Bool) (es : List Bool) : Bool :=
  es.foldl (fun a b => a && b) init

namespace detail.scope_guard

/-- The `enable_if` condition of `callback::callback(Fn_&&, Args_&&...)` for the
class `callback<Fn, Args...>`: `(is_constructible_v<Fn, Fn_> && ... &&
is_constructible_v<Args, Args_>)`.  Packs of different lengths cannot be
expanded together, and the constructor needs the callable. -/
def callback.ctor_enabled (tr : Traits) : List CppType → List CppType → Bool
  | Fn :: Args, Fn_ :: Args_ =>
    Args.length == Args_.length &&
      fold_and (tr.is_constructible Fn Fn_) (List.zipWith tr.is_constructible Args Args_)
  | _, _ => false

/-- The exception specification of `callback::callback(Fn_&&, Args_&&...)`:
`(is_nothrow_constructible_v<Fn, Fn_> && ... &&
is_nothrow_constructible_v<Args, Args_>)`. -/
def callback.ctor_noexcept (tr : Traits) : List CppType → List CppType → Bool
  | Fn :: Args, Fn_ :: Args_ =>
    fold_and (tr.is_nothrow_constructible Fn Fn_)
      (List.zipWith tr.is_nothrow_constructible Args Args_)
  | _, _ => false

/-- Value of `std::is_constructible_v<callback<Params...>, Ts...>`: the
constructor template is selectable for `Ts`.  (The implicit copy and move
constructors need an argument of the cell's own type, which is not in the
type fragment.) -/
def callback.is_constructible_v (tr : Traits) (Params Ts : List CppType) : Bool :=
  callback.ctor_enabled tr Params Ts

/-- Value of `std::is_nothrow_constructible_v<callback<Params...>, Ts...>`. -/
def callback.is_nothrow_constructible_v (tr : Traits) (Params Ts : List CppType) :
    Bool :=
  callback.ctor_enabled tr Params Ts && callback.ctor_noexcept tr Params Ts

/-- The `enable_if` condition of `base<Params...>::base(Params_&&...)`, as
written in the source: `std::is_constructible_v<callback_type, Params...>`. -/
def base.ctor_enabled (tr : Traits) (Params Params_ : List CppType) : Bool :=
  let _ := Params_
  callback.is_constructible_v tr Params Params

/-- The exception specification of `base<Params...>::base(Params_&&...)`, as
written in the source:
`noexcept(std::is_nothrow_constructible_v<callback_type, Params...>)`. -/
def base.ctor_noexcept (tr : Traits) (Params Params_ : List CppType) : Bool :=
  let _ := Params_
  callback.is_nothrow_constructible_v tr Params Params

end detail.scope_guard

/-! ## Observations on outcomes and sample objects -/

/-- The outcome `o` of a computation started in `w` shows exactly one new
invocation, that of the cell `id`. -/
def Outcome.fired {E V : Type} (o : Outcome E V) (w : World V) (id : Nat) : Prop :=
  o.world.invoked = w.invoked ++ [id]

/-- The outcome `o` of a computation started in `w` shows no new invocation. -/
def Outcome.quiet {E V : Type} (o : Outcome E V) (w : World V) : Prop :=
  o.world.invoked = w.invoked

instance Outcome.fired_decidable {E V : Type} (o : Outcome E V) (w : World V)
    (id : Nat) : Decidable (o.fired w id) :=
  inferInstanceAs (Decidable (o.world.invoked = w.invoked ++ [id]))

instance Outcome.quiet_decidable {E V : Type} (o : Outcome E V) (w : World V) :
    Decidable (o.quiet w) :=
  inferInstanceAs (Decidable (o.world.invoked = w.invoked))

/-- A world with every location holding `0` and an empty trace. -/
def sample_world : World Nat :=
  { mem := fun _ => 0, invoked := [] }

/-- A callable that stores `1` at location `0` and cannot throw. -/
def sample_store : Callable Nat Nat :=
  { body := fun _ m => (Function.update m 0 1, none), nothrow := true }

/-- A callable that throws the exception `7`. -/
def sample_throw : Callable Nat Nat :=
  { body := fun _ m => (m, some 7), nothrow := false }

/-- A holder of the non-throwing sample callable, cell number `5`. -/
def sample_base : base Nat Nat :=
  { callback := { id := 5, fn := sample_store, args := [] },
    nothrow_destructible := true }

/-- A holder of the throwing sample callable, cell number `6`. -/
def sample_base_throw : base Nat Nat :=
  { callback := { id := 6, fn := sample_throw, args := [] },
    nothrow_destructible := true }

/-- A reference wrapper always refers to an entity: an argument whose decayed
type is `std::reference_wrapper<T>` denotes one. -/
def Argument.well_formed {V : Type} (a : Argument V) : Bool :=
  match decay_t a.type, a.denotes with
  | .reference_wrapper _, .temporary _ => false
  | _, _ => true

/-- The value the specification says the action receives for an argument, with
memory `m0` at construction and `m1` at firing: for an argument wrapped in
`std::reference_wrapper`, the value of the referenced entity at firing time;
for any other argument, the value it had at construction time. -/
def spec_received {V : Type} (a : Argument V) (m0 m1 : Nat → V) : V :=
  match decay_t a.type, a.denotes with
  | .reference_wrapper _, .entity loc => m1 loc
  | _, _ => a.value m0

/-- Two sample arguments: `std::ref(x)` for the entity `x` at location `3`, and
the plain lvalue `x`. -/
def sample_args : List (Argument Nat) :=
  [{ type := .val (.reference_wrapper (.named 0)), denotes := .entity 3 },
   { type := .lref (.named 0), denotes := .entity 3 }]

/-- Traits of two sample callable types.  `named 0` is move-only: constructible
(without throwing) from an rvalue of itself, not from an lvalue.  `named 1` is
copyable with a copy constructor that may throw: constructible from lvalues
and rvalues of itself, without throwing only from rvalues. -/
def sample_traits : Traits :=
  { is_constructible := fun T U =>
      match T, U with
      | .val (.named 0), .val (.named 0) => true
      | .val (.named 0), .rref (.named 0) => true
      | .val (.named 1), .val (.named 1) => true
      | .val (.named 1), .rref (.named 1) => true
      | .val (.named 1), .lref (.named 1) => true
      | _, _ => false,
    is_nothrow_constructible := fun T U =>
      match T, U with
      | .val (.named 0), .val (.named 0) => true
      | .val (.named 0), .rref (.named 0) => true
      | .val (.named 1), .val (.named 1) => true
      | .val (.named 1), .rref (.named 1) => true
      | _, _ => false }

/-- A callable that appends `label` to the log kept at location `0` and cannot
throw. -/
def append_label (label : String) : Callable Nat (List String) :=
  { body := fun _ m => (Function.update m 0 (m 0 ++ [label]), none), nothrow := true }

/-- A holder of the callable appending `label`, cell number `id`. -/
def logging_base (id : Nat) (label : String) : base Nat (List String) :=
  { callback := { id := id, fn := append_label label, args := [] },
    nothrow_destructible := true }

/-- A world with an empty log and an empty trace. -/
def empty_log : World (List String) :=
  { mem := fun _ => [], invoked := [] }

/-- The cells of the guards of nested scopes (innermost scope first, each in
declaration order), in the order in which stack unwinding destroys the guards. -/
def unwind_order {E V : Type} (scopes : List (List (Guard E V))) : List Nat :=
  (scopes.map fun scope => scope.reverse.map fun g => g.cell.id).flatten

/-! ## Basic facts about the embedding -/

theorem enforce_noexcept_world {E V : Type} (flag : Bool) (o : Outcome E V) :
    (enforce_noexcept flag o).world = o.world := by
  cases flag <;> cases o <;> rfl

theorem enforce_noexcept_idem {E V : Type} (flag : Bool) (o : Outcome E V) :
    enforce_noexcept flag (enforce_noexcept flag o) = enforce_noexcept flag o := by
  cases flag <;> cases o <;> rfl

theorem index_sequence_get {α : Type} (xs : List α) :
    (List.range xs.length).filterMap (fun i => xs[i]?) = xs := by
  apply List.ext_getElem?
  intro n
  induction xs using List.reverseRecOn generalizing n with
  | nil => simp
  | append_singleton ys y ih =>
    rw [List.length_append, List.length_singleton, List.range_succ, List.filterMap_append]
    have h1 : List.filterMap (fun i => (ys ++ [y])[i]?) (List.range ys.length) = ys := by
      have : List.filterMap (fun i => (ys ++ [y])[i]?) (List.range ys.length)
           = List.filterMap (fun i => ys[i]?) (List.range ys.length) := by
        apply List.filterMap_congr
        intro i hi
        rw [List.mem_range] at hi
        rw [List.getElem?_append_left hi]
      rw [this]
      apply List.ext_getElem?
      exact ih
    rw [h1]
    simp

/-- The three nested exception specifications of `apply_impl`, `apply` and
`operator()` add nothing to the one of `std::invoke`: the cell's call is the
callable's invocation, after the ghost trace has recorded it. -/
theorem callback_call_eq {E V : Type} (cb : callback E V) (w : World V) :
    cb.call w = cb.fn.invoke cb.args { w with invoked := w.invoked ++ [cb.id] } := by
  unfold callback.call callback.call_noexcept apply apply_impl
  rw [index_sequence_get]
  unfold Callable.invoke
  simp only [enforce_noexcept_idem]

theorem invoke_world {E V : Type} (fn : Callable E V) (args : List (Slot V))
    (w : World V) :
    (fn.invoke args w).world = { w with mem := (fn.body args w.mem).1 } := by
  unfold Callable.invoke
  rw [enforce_noexcept_world]
  rcases h : fn.body args w.mem with ⟨m, _ | e⟩ <;> rfl

/-- An invocation of a callable whose call expression is `noexcept` never
exits by an exception. -/
theorem invoke_nothrow {E V : Type} (fn : Callable E V) (args : List (Slot V))
    (w : World V) (h : fn.nothrow = true) (e : E) (w1 : World V) :
    fn.invoke args w ≠ .raised e w1 := by
  unfold Callable.invoke
  rw [h]
  rcases fn.body args w.mem with ⟨m, _ | e1⟩ <;> simp [enforce_noexcept]

/-- The destructor's exception specification never turns an exception of the
cell into a termination: it is `noexcept` only if the cell's call is. -/
theorem enforce_dtor_call {E V : Type} (cb : callback E V) (nd : Bool) (w : World V) :
    enforce_noexcept (cb.call_noexcept && nd) (cb.call w) = cb.call w := by
  cases hn : cb.call_noexcept
  · rfl
  · cases nd
    · rfl
    · simp only [Bool.and_self]
      have hh : cb.fn.nothrow = true := hn
      have := invoke_nothrow cb.fn cb.args { w with invoked := w.invoked ++ [cb.id] } hh
      rw [← callback_call_eq] at this
      cases hc : cb.call w with
      | done w1 => rfl
      | raised e w1 => exact absurd hc (this e w1)
      | terminated w1 => rfl

theorem enforce_done {E V : Type} (flag : Bool) (w : World V) :
    enforce_noexcept flag (Outcome.done w : Outcome E V) = .done w := by
  cases flag <;> rfl

theorem scope_guard_destroy_eq {E V : Type} (g : scope_guard E V) (w : World V) :
    g.destroy w = g.callback.call w := by
  unfold scope_guard.destroy
  exact enforce_dtor_call _ _ _

theorem scope_guard_failure_destroy_eq {E V : Type} (g : scope_guard_failure E V)
    (M : Int) (w : World V) :
    g.destroy M w = if M > g.in_ then g.callback.call w else .done w := by
  unfold scope_guard_failure.destroy BOOST_UNLIKELY
  by_cases h : M > g.in_
  · simp only [h, decide_True, if_true]
    exact enforce_dtor_call _ _ _
  · simp only [h, decide_False, if_false, Bool.false_eq_true]
    exact enforce_done _ _

theorem scope_guard_success_destroy_eq {E V : Type} (g : scope_guard_success E V)
    (M : Int) (w : World V) :
    g.destroy M w = if M = g.in_ then g.callback.call w else .done w := by
  unfold scope_guard_success.destroy BOOST_LIKELY
  by_cases h : M = g.in_
  · simp only [h, beq_self_eq_true, if_true]
    exact enforce_dtor_call _ _ _
  · have : (M == g.in_) = false := by simpa using h
    simp only [h, this, if_false, Bool.false_eq_true]
    exact enforce_done _ _

theorem callback_call_invoked {E V : Type} (cb : callback E V) (w : World V) :
    (cb.call w).world.invoked = w.invoked ++ [cb.id] := by
  rw [callback_call_eq, invoke_world]

theorem callback_call_fired {E V : Type} (cb : callback E V) (w : World V) :
    (cb.call w).fired w cb.id :=
  callback_call_invoked cb w

theorem not_fired_of_quiet {E V : Type} (o : Outcome E V) (w : World V) (id : Nat)
    (h : o.quiet w) : ¬ o.fired w id := by
  unfold Outcome.fired
  unfold Outcome.quiet at h
  rw [h]
  intro hh
  have := congrArg List.length hh
  simp at this

theorem done_not_fired {E V : Type} (w : World V) (id : Nat) :
    ¬ (Outcome.done w : Outcome E V).fired w id :=
  not_fired_of_quiet _ w id rfl

theorem failure_fired_iff {E V : Type} (b : base E V) (N M : Int) (w : World V) :
    ((scope_guard_failure.construct b N).destroy M w).fired w b.callback.id ↔ M > N := by
  rw [scope_guard_failure_destroy_eq]
  simp only [scope_guard_failure.construct]
  by_cases h : M > N
  · rw [if_pos h]
    exact ⟨fun _ => h, fun _ => callback_call_fired b.callback w⟩
  · rw [if_neg h]
    exact ⟨fun hf => absurd hf (done_not_fired w _), fun hm => absurd hm h⟩

theorem success_fired_iff {E V : Type} (b : base E V) (N M : Int) (w : World V) :
    ((scope_guard_success.construct b N).destroy M w).fired w b.callback.id ↔ M = N := by
  rw [scope_guard_success_destroy_eq]
  simp only [scope_guard_success.construct]
  by_cases h : M = N
  · rw [if_pos h]
    exact ⟨fun _ => h, fun _ => callback_call_fired b.callback w⟩
  · rw [if_neg h]
    exact ⟨fun hf => absurd hf (done_not_fired w _), fun hm => absurd hm h⟩

/-- Every destructor is the guarded call of the cell: the call when the policy
fires, nothing otherwise. -/
theorem guard_destroy_eq {E V : Type} (g : Guard E V) (M : Int) (w : World V) :
    g.destroy M w = if g.fires M = true then g.cell.call w else .done w := by
  cases g with
  | always g =>
    simp only [Guard.destroy, Guard.fires, Guard.cell, if_true]
    exact scope_guard_destroy_eq g w
  | on_failure g =>
    simp only [Guard.destroy, Guard.fires, Guard.cell, scope_guard_failure.destroy]
    cases h : BOOST_UNLIKELY (decide (M > g.in_))
    · simp only [Bool.false_eq_true, if_false]
      exact enforce_done _ _
    · simp only [if_true]
      exact enforce_dtor_call _ _ _
  | on_success g =>
    simp only [Guard.destroy, Guard.fires, Guard.cell, scope_guard_success.destroy]
    cases h : BOOST_LIKELY (M == g.in_)
    · simp only [Bool.false_eq_true, if_false]
      exact enforce_done _ _
    · simp only [if_true]
      exact enforce_dtor_call _ _ _

theorem guard_construct_cell {E V : Type} (k : Kind) (b : base E V) (N : Int) :
    (Guard.construct k b N).cell = b.callback := by
  cases k <;> rfl

theorem capture_all_received {V : Type} (args : List (Argument V)) (m0 m1 : Nat → V)
    (hwf : ∀ a ∈ args, a.well_formed = true) :
    ∃ slots, capture_all (deduction_guide (args.map fun a => a.type)) args m0 = some slots ∧
      slots.map (Slot.read m1) = args.map fun a => spec_received a m0 m1 := by
  induction args with
  | nil => exact ⟨[], rfl, rfl⟩
  | cons a as ih =>
    obtain ⟨ss, hss, hread⟩ := ih (fun x hx => hwf x (List.mem_cons_of_mem _ hx))
    have hw := hwf a (List.mem_cons_self _ _)
    simp only [deduction_guide, List.map_cons, capture_all] at hss ⊢
    rw [hss]
    unfold unwrap_decay_t
    cases hd : decay_t a.type with
    | reference_wrapper T =>
      obtain ⟨loc, hloc⟩ : ∃ loc, a.denotes = .entity loc := by
        cases hden : a.denotes with
        | entity loc => exact ⟨loc, rfl⟩
        | temporary v => simp [Argument.well_formed, hd, hden] at hw
      refine ⟨Slot.ref loc :: ss, ?_, ?_⟩
      · simp [unwrap, capture, hloc]
      · rw [List.map_cons, hread]
        congr 1
        simp [spec_received, hd, hloc, Slot.read]
    | named n =>
      refine ⟨Slot.value (a.value m0) :: ss, ?_, ?_⟩
      · simp [unwrap, capture]
      · rw [List.map_cons, hread]
        congr 1
        simp [spec_received, hd, Slot.read]
    | const t =>
      refine ⟨Slot.value (a.value m0) :: ss, ?_, ?_⟩
      · simp [unwrap, capture]
      · rw [List.map_cons, hread]
        congr 1
        simp [spec_received, hd, Slot.read]
    | array t =>
      refine ⟨Slot.value (a.value m0) :: ss, ?_, ?_⟩
      · simp [unwrap, capture]
      · rw [List.map_cons, hread]
        congr 1
        simp [spec_received, hd, Slot.read]
    | pointer t =>
      refine ⟨Slot.value (a.value m0) :: ss, ?_, ?_⟩
      · simp [unwrap, capture]
      · rw [List.map_cons, hread]
        congr 1
        simp [spec_received, hd, Slot.read]

theorem guard_destroy_invoked {E V : Type} (g : Guard E V) (M : Int) (w : World V) :
    (g.destroy M w).world.invoked
      = w.invoked ++ (if g.fires M = true then [g.cell.id] else []) := by
  rw [guard_destroy_eq]
  cases g.fires M
  · simp [Outcome.world]
  · simp only [if_true]
    exact callback_call_invoked _ _

theorem invoke_done_of_no_raise {E V : Type} (fn : Callable E V)
    (args : List (Slot V)) (w : World V) (h : (fn.body args w.mem).2 = none) :
    fn.invoke args w = .done { w with mem := (fn.body args w.mem).1 } := by
  unfold Callable.invoke
  rcases hb : fn.body args w.mem with ⟨m, o⟩
  rw [hb] at h
  simp only at h
  subst h
  exact enforce_done _ _

/-- Whatever the callables do, the invocations made while the guards `gs` are
destroyed in this order follow this order. -/
theorem destroy_all_sublist {E V : Type} (gs : List (Guard E V)) :
    ∀ (pending : Option E) (depth : Int) (w : World V),
      ∃ delta, (destroy_all gs pending depth w).world.invoked = w.invoked ++ delta ∧
        delta.Sublist (gs.map fun g => g.cell.id) := by
  induction gs with
  | nil =>
    intro pending depth w
    cases pending <;> exact ⟨[], by simp [destroy_all, Outcome.world], List.nil_sublist _⟩
  | cons g gs ih =>
    intro pending depth w
    have hg := guard_destroy_invoked g depth w
    have hsub : (if g.fires depth = true then [g.cell.id] else []).Sublist [g.cell.id] := by
      cases g.fires depth <;> simp
    have hstop : ∀ w1 : World V, w1.invoked
          = w.invoked ++ (if g.fires depth = true then [g.cell.id] else []) →
        ∃ delta, w1.invoked = w.invoked ++ delta ∧
          delta.Sublist ((g :: gs).map fun g => g.cell.id) := by
      intro w1 h1
      refine ⟨_, h1, ?_⟩
      have := List.Sublist.append hsub (List.nil_sublist (gs.map fun g => g.cell.id))
      simpa using this
    have hgo : ∀ (p : Option E) (d : Int) (w1 : World V), w1.invoked
          = w.invoked ++ (if g.fires depth = true then [g.cell.id] else []) →
        ∃ delta, (destroy_all gs p d w1).world.invoked = w.invoked ++ delta ∧
          delta.Sublist ((g :: gs).map fun g => g.cell.id) := by
      intro p d w1 h1
      obtain ⟨delta, hd, hs⟩ := ih p d w1
      refine ⟨(if g.fires depth = true then [g.cell.id] else []) ++ delta, ?_, ?_⟩
      · rw [hd, h1, List.append_assoc]
      · have := List.Sublist.append hsub hs
        simpa using this
    unfold destroy_all
    cases hdes : g.destroy depth w with
    | done w1 =>
      rw [hdes] at hg
      exact hgo pending depth w1 hg
    | terminated w1 =>
      rw [hdes] at hg
      exact hstop w1 hg
    | raised e1 w1 =>
      rw [hdes] at hg
      cases pending with
      | none => exact hgo (some e1) (depth + 1) w1 hg
      | some e0 => exact hstop w1 hg

/-- When no callable throws, destroying the guards `gs` in this order invokes
exactly those whose policy fires, in this order, and the scope is left the
way it was being left. -/
theorem destroy_all_of_no_raise {E V : Type} (gs : List (Guard E V))
    (hn : ∀ g ∈ gs, ∀ args m, (g.cell.fn.body args m).2 = none) :
    ∀ (pending : Option E) (depth : Int) (w : World V),
      (destroy_all gs pending depth w).world.invoked
        = w.invoked ++ ((gs.filter fun g => g.fires depth).map fun g => g.cell.id) ∧
      (destroy_all gs pending depth w).exception = pending := by
  induction gs with
  | nil =>
    intro pending depth w
    cases pending <;> simp [destroy_all, Outcome.world, Outcome.exception]
  | cons g gs ih =>
    intro pending depth w
    have ih1 := ih (fun x hx => hn x (List.mem_cons_of_mem _ hx)) pending depth
    have hb := hn g (List.mem_cons_self _ _)
    unfold destroy_all
    rw [guard_destroy_eq]
    cases hf : g.fires depth
    · simp only [Bool.false_eq_true, if_false, List.filter_cons, hf]
      exact ih1 w
    · simp only [if_true, List.filter_cons, hf, List.map_cons]
      rw [callback_call_eq, invoke_done_of_no_raise _ _ _ (hb _ _)]
      simp only
      obtain ⟨h1, h2⟩ := ih1 { mem := (g.cell.fn.body g.cell.args w.mem).1,
                                invoked := w.invoked ++ [g.cell.id] }
      refine ⟨?_, h2⟩
      rw [h1]
      simp

theorem unwind_sublist {E V : Type} (scopes : List (List (Guard E V))) :
    ∀ (e : E) (depth : Int) (w : World V),
      ∃ delta, (unwind scopes e depth w).world.invoked = w.invoked ++ delta ∧
        delta.Sublist (unwind_order scopes) := by
  induction scopes with
  | nil =>
    intro e depth w
    exact ⟨[], by simp [unwind, Outcome.world], List.nil_sublist _⟩
  | cons s outer ih =>
    intro e depth w
    obtain ⟨d1, h1, s1⟩ := destroy_all_sublist s.reverse (some e) depth w
    have hstop : ∃ delta, (exit_scope s (some e) depth w).world.invoked
          = w.invoked ++ delta ∧ delta.Sublist (unwind_order (s :: outer)) := by
      refine ⟨d1, h1, ?_⟩
      have := List.Sublist.append s1 (List.nil_sublist (unwind_order outer))
      simpa [unwind_order] using this
    unfold unwind
    cases hx : exit_scope s (some e) depth w with
    | done w1 =>
      rw [hx] at hstop
      exact hstop
    | terminated w1 =>
      rw [hx] at hstop
      exact hstop
    | raised e1 w1 =>
      simp only
      obtain ⟨d2, h2, s2⟩ := ih e1 depth w1
      have hw1 : w1.invoked = w.invoked ++ d1 := by
        have := h1
        unfold exit_scope at hx
        rw [hx] at this
        exact this
      refine ⟨d1 ++ d2, ?_, ?_⟩
      · rw [h2, hw1, List.append_assoc]
      · have := List.Sublist.append s1 s2
        simpa [unwind_order] using this

theorem unwind_order_perm {E V : Type} (scopes : List (List (Guard E V))) :
    (unwind_order scopes).Perm (scopes.flatten.map fun g => g.cell.id) := by
  induction scopes with
  | nil => simp [unwind_order]
  | cons s outer ih =>
    have h1 : (s.reverse.map fun g => g.cell.id).Perm (s.map fun g => g.cell.id) :=
      (List.reverse_perm s).map _
    have := List.Perm.append h1 ih
    simpa [unwind_order] using this

/-! ## The claims -/

/-- C1: a `scope_guard_failure` constructed at uncaught-exception depth `N` and
destroyed at depth `M` invokes its callback exactly once when `M > N` (the
destructor is then exactly one call of the cell) and not at all otherwise; in
particular a normal exit with `M = 0` never fires it, whatever `N ≥ 0` was. -/
theorem scope_guard_failure_fires_iff_depth_grew {E V : Type} (b : base E V)
    (N M : Int) (w : World V) :
    (M > N →
      (scope_guard_failure.construct b N).destroy M w = b.callback.call w ∧
      ((scope_guard_failure.construct b N).destroy M w).fired w b.callback.id) ∧
    (¬ M > N → (scope_guard_failure.construct b N).destroy M w = .done w) ∧
    (0 ≤ N → (scope_guard_failure.construct b N).destroy 0 w = .done w) := by
  refine ⟨fun h => ?_, fun h => ?_, fun h => ?_⟩
  · have e : (scope_guard_failure.construct b N).destroy M w = b.callback.call w := by
      rw [scope_guard_failure_destroy_eq]
      simp only [scope_guard_failure.construct]
      rw [if_pos h]
    exact ⟨e, e ▸ callback_call_fired b.callback w⟩
  · rw [scope_guard_failure_destroy_eq]
    simp only [scope_guard_failure.construct]
    rw [if_neg h]
  · rw [scope_guard_failure_destroy_eq]
    simp only [scope_guard_failure.construct]
    rw [if_neg (by omega)]

/-- C1, at concrete depths: constructed at depth 2 the guard fires at depth 3,
does not fire at depth 2, and does not fire on a normal exit at depth 0. -/
theorem scope_guard_failure_fires_iff_depth_grew_witness :
    ((scope_guard_failure.construct sample_base 2).destroy 3 sample_world
        = sample_base.callback.call sample_world ∧
      ((scope_guard_failure.construct sample_base 2).destroy 3 sample_world).fired
        sample_world 5) ∧
    (scope_guard_failure.construct sample_base 2).destroy 2 sample_world
        = .done sample_world ∧
    (scope_guard_failure.construct sample_base 2).destroy 0 sample_world
        = .done sample_world :=
  ⟨(scope_guard_failure_fires_iff_depth_grew sample_base 2 3 sample_world).1 (by decide),
   (scope_guard_failure_fires_iff_depth_grew sample_base 2 2 sample_world).2.1 (by decide),
   (scope_guard_failure_fires_iff_depth_grew sample_base 2 0 sample_world).2.2 (by decide)⟩

/-- C2: a `scope_guard_success` constructed at uncaught-exception depth `N` and
destroyed at depth `M` invokes its callback exactly once when `M = N` (the
destructor is then exactly one call of the cell) and not at all otherwise. -/
theorem scope_guard_success_fires_iff_depth_equal {E V : Type} (b : base E V)
    (N M : Int) (w : World V) :
    (M = N →
      (scope_guard_success.construct b N).destroy M w = b.callback.call w ∧
      ((scope_guard_success.construct b N).destroy M w).fired w b.callback.id) ∧
    (M ≠ N → (scope_guard_success.construct b N).destroy M w = .done w) := by
  refine ⟨fun h => ?_, fun h => ?_⟩
  · have e : (scope_guard_success.construct b N).destroy M w = b.callback.call w := by
      rw [scope_guard_success_destroy_eq]
      simp only [scope_guard_success.construct]
      rw [if_pos h]
    exact ⟨e, e ▸ callback_call_fired b.callback w⟩
  · rw [scope_guard_success_destroy_eq]
    simp only [scope_guard_success.construct]
    rw [if_neg h]

/-- C2, at concrete depths: constructed at depth 1 the guard fires at depth 1 and
does not fire at depth 2. -/
theorem scope_guard_success_fires_iff_depth_equal_witness :
    ((scope_guard_success.construct sample_base 1).destroy 1 sample_world
        = sample_base.callback.call sample_world ∧
      ((scope_guard_success.construct sample_base 1).destroy 1 sample_world).fired
        sample_world 5) ∧
    (scope_guard_success.construct sample_base 1).destroy 2 sample_world
        = .done sample_world :=
  ⟨(scope_guard_success_fires_iff_depth_equal sample_base 1 1 sample_world).1 rfl,
   (scope_guard_success_fires_iff_depth_equal sample_base 1 2 sample_world).2 (by decide)⟩

/-- C3: the destructor of the unconditional `scope_guard` is exactly one call of
the stored callback, in every world; it reads no uncaught-exception depth, so
this holds for every depth at construction and at destruction, that is for
every way the scope is left. -/
theorem scope_guard_fires_exactly_once {E V : Type} (b : base E V) (N M : Int)
    (w : World V) :
    (Guard.construct .always b N).destroy M w = b.callback.call w ∧
    ((Guard.construct .always b N).destroy M w).fired w b.callback.id := by
  have e : (Guard.construct .always b N).destroy M w = b.callback.call w := by
    simp only [Guard.construct, Guard.destroy, scope_guard.construct]
    rw [scope_guard_destroy_eq]
  exact ⟨e, e ▸ callback_call_fired b.callback w⟩

/-- C4, as stated, fails.  With snapshot depth 1 and destruction depth 0 neither
guard fires, so the success guard is not the complement of the failure guard,
and it stays silent although no failure is propagating; with snapshot depth 1
and destruction depth 1 the success guard fires although a failure is
propagating. -/
theorem success_complement_counterexample :
    ¬ (((scope_guard_success.construct sample_base 1).destroy 0 sample_world).fired
          sample_world 5 ↔
        ¬ ((scope_guard_failure.construct sample_base 1).destroy 0 sample_world).fired
          sample_world 5) ∧
    ¬ (((scope_guard_success.construct sample_base 1).destroy 0 sample_world).fired
          sample_world 5 ↔ (0 : Int) = 0) ∧
    ¬ (((scope_guard_success.construct sample_base 1).destroy 1 sample_world).fired
          sample_world 5 ↔ (1 : Int) = 0) := by
  have hs0 := success_fired_iff sample_base 1 0 sample_world
  have hf0 := failure_fired_iff sample_base 1 0 sample_world
  have hs1 := success_fired_iff sample_base 1 1 sample_world
  have id5 : sample_base.callback.id = 5 := rfl
  rw [id5] at hs0 hf0 hs1
  refine ⟨?_, ?_, ?_⟩
  · rw [hs0, hf0]; decide
  · rw [hs0]; decide
  · rw [hs1]; decide

/-- C4, amended: when the destruction depth `M` is not below the snapshot `N`, a
`scope_guard_success` fires exactly when a `scope_guard_failure` with the same
snapshot does not; for all depths it fires exactly when `M = N`, that is when
no failure is propagating beyond those of construction time, which for a
snapshot of `0` means that no failure is propagating at all. -/
theorem success_complement_of_failure_from_snapshot {E V : Type} (b : base E V)
    (N M : Int) (w : World V) :
    (N ≤ M →
      (((scope_guard_success.construct b N).destroy M w).fired w b.callback.id ↔
        ¬ ((scope_guard_failure.construct b N).destroy M w).fired w b.callback.id)) ∧
    (((scope_guard_success.construct b N).destroy M w).fired w b.callback.id ↔ M = N) ∧
    (N = 0 →
      (((scope_guard_success.construct b N).destroy M w).fired w b.callback.id ↔ M = 0)) := by
  refine ⟨fun h => ?_, success_fired_iff b N M w, fun h => ?_⟩
  · rw [success_fired_iff, failure_fired_iff]
    omega
  · rw [success_fired_iff, h]

/-- C4, amended, at concrete depths: snapshot 1 and destruction depth 2, and
snapshot 0 and destruction depth 0. -/
theorem success_complement_of_failure_from_snapshot_witness :
    (((scope_guard_success.construct sample_base 1).destroy 2 sample_world).fired
        sample_world sample_base.callback.id ↔
      ¬ ((scope_guard_failure.construct sample_base 1).destroy 2 sample_world).fired
        sample_world sample_base.callback.id) ∧
    (((scope_guard_success.construct sample_base 0).destroy 0 sample_world).fired
        sample_world sample_base.callback.id ↔ (0 : Int) = 0) :=
  ⟨(success_complement_of_failure_from_snapshot sample_base 1 2 sample_world).1 (by decide),
   (success_complement_of_failure_from_snapshot sample_base 0 0 sample_world).2.2 rfl⟩

/-- C5: when the failures raised inside the guarded scope after construction
at depth `N` have all been caught before the guard is destroyed (the
uncaught-exception count is back at `N`), a `scope_guard_failure` does not
invoke its callback and a `scope_guard_success` invokes it exactly once. -/
theorem caught_failures_leave_scope_successful {E V : Type} (b : base E V)
    (N : Int) (evs : List Event) (w : World V) (h : uncaught_after N evs = N) :
    (scope_guard_failure.construct b N).destroy (uncaught_after N evs) w = .done w ∧
    (scope_guard_success.construct b N).destroy (uncaught_after N evs) w
      = b.callback.call w ∧
    ((scope_guard_success.construct b N).destroy (uncaught_after N evs) w).fired w
      b.callback.id := by
  rw [h]
  have e : (scope_guard_success.construct b N).destroy N w = b.callback.call w := by
    rw [scope_guard_success_destroy_eq]
    simp [scope_guard_success.construct]
  refine ⟨?_, e, e ▸ callback_call_fired b.callback w⟩
  rw [scope_guard_failure_destroy_eq]
  simp only [scope_guard_failure.construct]
  rw [if_neg (by omega)]

/-- C5, on a concrete scope: constructed at depth 1, then a failure is raised
and caught, then two nested failures are raised and caught. -/
theorem caught_failures_leave_scope_successful_witness :
    uncaught_after 1 [.raise, .caught, .raise, .raise, .caught, .caught] = 1 ∧
    (scope_guard_failure.construct sample_base 1).destroy
      (uncaught_after 1 [.raise, .caught, .raise, .raise, .caught, .caught])
      sample_world = .done sample_world ∧
    ((scope_guard_success.construct sample_base 1).destroy
      (uncaught_after 1 [.raise, .caught, .raise, .raise, .caught, .caught])
      sample_world).fired sample_world 5 :=
  ⟨by decide,
   (caught_failures_leave_scope_successful sample_base 1
      [.raise, .caught, .raise, .raise, .caught, .caught] sample_world (by decide)).1,
   (caught_failures_leave_scope_successful sample_base 1
      [.raise, .caught, .raise, .raise, .caught, .caught] sample_world (by decide)).2.2⟩

/-- C8: an argument whose decayed type is `std::reference_wrapper<T>` gets a
slot of type `T&` and the action reads through it the value the referenced
entity has at firing time; any other argument gets a slot of its decayed type
and the action reads the value the argument had at construction time.  For a
whole guard built through the deduction guide, the capture succeeds and the
fired action is the callable invoked on slots that read exactly these values. -/
theorem capture_by_reference_or_by_value {E V : Type} (a : Argument V)
    (m0 m1 : Nat → V) :
    (∀ T loc, decay_t a.type = .reference_wrapper T → a.denotes = .entity loc →
      unwrap_decay_t a.type = .lref T ∧
      ∃ s, capture (unwrap_decay_t a.type) a m0 = some s ∧ s.read m1 = m1 loc) ∧
    ((∀ T, decay_t a.type ≠ .reference_wrapper T) →
      unwrap_decay_t a.type = .val (decay_t a.type) ∧
      ∃ s, capture (unwrap_decay_t a.type) a m0 = some s ∧ s.read m1 = a.value m0) ∧
    (∀ (id : Nat) (fn : Callable E V) (args : List (Argument V)) (nd : Bool)
        (w1 : World V),
      (∀ x ∈ args, x.well_formed = true) →
      ∃ cb, callback.construct id fn (deduction_guide (args.map fun x => x.type))
              args m0 = some cb ∧
        cb.args.map (Slot.read w1.mem) = (args.map fun x => spec_received x m0 w1.mem) ∧
        (scope_guard.construct { callback := cb, nothrow_destructible := nd }).destroy w1
          = fn.invoke cb.args { w1 with invoked := w1.invoked ++ [id] }) := by
  refine ⟨fun T loc hd hloc => ?_, fun hn => ?_, fun id fn args nd w1 hwf => ?_⟩
  · unfold unwrap_decay_t
    rw [hd]
    exact ⟨rfl, Slot.ref loc, by simp [unwrap, capture, hloc], rfl⟩
  · unfold unwrap_decay_t
    cases hd : decay_t a.type with
    | reference_wrapper T => exact absurd hd (hn T)
    | named n => exact ⟨rfl, Slot.value (a.value m0), by simp [unwrap, capture], rfl⟩
    | const t => exact ⟨rfl, Slot.value (a.value m0), by simp [unwrap, capture], rfl⟩
    | array t => exact ⟨rfl, Slot.value (a.value m0), by simp [unwrap, capture], rfl⟩
    | pointer t => exact ⟨rfl, Slot.value (a.value m0), by simp [unwrap, capture], rfl⟩
  · obtain ⟨slots, hs, hr⟩ := capture_all_received args m0 w1.mem hwf
    refine ⟨{ id := id, fn := fn, args := slots }, ?_, hr, ?_⟩
    · simp only [callback.construct, hs]
    · rw [scope_guard_destroy_eq]
      simp only [scope_guard.construct]
      rw [callback_call_eq]

/-- C8, on concrete arguments: `std::ref(x)` for the entity at location 3 and a
plain lvalue naming the same entity, with the entity holding 10 at
construction and 20 at firing: the first slot reads 20, the second 10, also
in the cell constructed from both. -/
theorem capture_by_reference_or_by_value_witness :
    (unwrap_decay_t (.val (.reference_wrapper (.named 0))) = .lref (.named 0) ∧
      ∃ s, capture (unwrap_decay_t (.val (.reference_wrapper (.named 0))))
            ({ type := .val (.reference_wrapper (.named 0)), denotes := .entity 3 } :
              Argument Nat) (fun _ => 10) = some s ∧
          s.read (fun _ => 20) = 20) ∧
    (unwrap_decay_t (.lref (.named 0)) = .val (.named 0) ∧
      ∃ s, capture (unwrap_decay_t (.lref (.named 0)))
            ({ type := .lref (.named 0), denotes := .entity 3 } : Argument Nat)
            (fun _ => 10) = some s ∧
          s.read (fun _ => 20) = 10) ∧
    (∃ cb, callback.construct 5 sample_store
            (deduction_guide (sample_args.map fun x => x.type)) sample_args
            (fun _ => 10) = some cb ∧
        cb.args.map (Slot.read (fun _ => 20)) = [20, 10]) :=
  ⟨(capture_by_reference_or_by_value (E := Nat)
      { type := .val (.reference_wrapper (.named 0)), denotes := .entity 3 }
      (fun _ => 10) (fun _ => 20)).1 (.named 0) 3 rfl rfl,
   (capture_by_reference_or_by_value (E := Nat)
      { type := .lref (.named 0), denotes := .entity 3 }
      (fun _ => 10) (fun _ => 20)).2.1 (by intro T h; cases h),
   match (capture_by_reference_or_by_value (E := Nat)
      { type := .lref (.named 0), denotes := .entity 3 }
      (fun _ => 10) (fun _ => 20)).2.2 5 sample_store sample_args
      true { mem := fun _ => 20, invoked := [] } (by decide) with
   | ⟨cb, h1, h2, _⟩ => ⟨cb, h1, h2⟩⟩

/-- C9: for each guard kind, when the policy fires the destructor ends exactly
as the invocation of the wrapped callable ends: if the callable exits by the
exception `e`, so does the destructor, with the same `e`; if it completes, so
does the destructor.  When the policy does not fire the destructor completes
without touching the world.  The policy is the one of the kind. -/
theorem destructor_propagates_callable_failure {E V : Type} (k : Kind)
    (b : base E V) (N M : Int) (w : World V) :
    ((Guard.construct k b N).fires M = true → ∀ e w1,
      b.callback.fn.invoke b.callback.args
        { w with invoked := w.invoked ++ [b.callback.id] } = .raised e w1 →
      (Guard.construct k b N).destroy M w = .raised e w1) ∧
    ((Guard.construct k b N).fires M = true → ∀ w1,
      b.callback.fn.invoke b.callback.args
        { w with invoked := w.invoked ++ [b.callback.id] } = .done w1 →
      (Guard.construct k b N).destroy M w = .done w1) ∧
    ((Guard.construct k b N).fires M = false →
      (Guard.construct k b N).destroy M w = .done w) ∧
    (Guard.construct k b N).fires M =
      (match k with
       | .always => true
       | .on_failure => decide (M > N)
       | .on_success => decide (M = N)) := by
  have hd := guard_destroy_eq (Guard.construct k b N) M w
  rw [guard_construct_cell, callback_call_eq] at hd
  refine ⟨fun hf e w1 hi => ?_, fun hf w1 hi => ?_, fun hf => ?_, ?_⟩
  · rw [hd, if_pos hf, hi]
  · rw [hd, if_pos hf, hi]
  · rw [hd, hf]; rfl
  · cases k
    · rfl
    · rfl
    · by_cases h : M = N <;> simp [Guard.construct, Guard.fires, scope_guard_success.construct, BOOST_LIKELY, h]

/-- C9, on a concrete guard: the unconditional guard around the callable that
throws `7` exits by `7`; a failure guard around the storing callable,
constructed at depth 0 and destroyed at depth 1, fires and completes; a success
guard around the throwing callable, constructed at depth 0 and destroyed at
depth 1, does not fire and completes. -/
theorem destructor_propagates_callable_failure_witness :
    (Guard.construct .always sample_base_throw 0).destroy 0 sample_world
      = .raised 7 { mem := fun _ => 0, invoked := [6] } ∧
    (Guard.construct .on_failure sample_base 0).destroy 1 sample_world
      = .done { mem := Function.update (fun _ => 0) 0 1, invoked := [5] } ∧
    (Guard.construct .on_success sample_base_throw 0).destroy 1 sample_world
      = .done sample_world :=
  ⟨(destructor_propagates_callable_failure .always sample_base_throw 0 0
      sample_world).1 rfl 7 { mem := fun _ => 0, invoked := [6] } rfl,
   (destructor_propagates_callable_failure .on_failure sample_base 0 1
      sample_world).2.1 rfl { mem := Function.update (fun _ => 0) 0 1, invoked := [5] } rfl,
   (destructor_propagates_callable_failure .on_success sample_base_throw 0 1
      sample_world).2.2.1 rfl⟩

/-- C10, evaluated on the source: the constraint and the exception specification
of `base::base(Params_&&...)` are computed from the stored list `Params`, not
from the caller-supplied `Params_`.  For the stored move-only type `named 0`
and an lvalue argument the constructor is selectable although the cell is not
constructible from that argument; for the stored type `named 1` and an lvalue
argument the constructor is `noexcept` although constructing the cell from
that argument may throw.  In general neither depends on `Params_`. -/
theorem base_ctor_uses_stored_types :
    base.ctor_enabled sample_traits [.val (.named 0)] [.lref (.named 0)] = true ∧
    callback.is_constructible_v sample_traits [.val (.named 0)] [.lref (.named 0)]
      = false ∧
    base.ctor_noexcept sample_traits [.val (.named 1)] [.lref (.named 1)] = true ∧
    callback.is_nothrow_constructible_v sample_traits [.val (.named 1)]
      [.lref (.named 1)] = false ∧
    (∀ (tr : Traits) (Params P1 P2 : List CppType),
      base.ctor_enabled tr Params P1 = base.ctor_enabled tr Params P2 ∧
      base.ctor_noexcept tr Params P1 = base.ctor_noexcept tr Params P2) := by
  refine ⟨by decide, by decide, by decide, by decide, fun _ _ _ _ => ⟨rfl, rfl⟩⟩

/-- C6: when a scope is left, the invocations made by its guards follow the
reverse of the declaration order, whatever the callables do; when no callable
throws, the guards invoked are exactly those whose policy fires at the exit
depth, in reverse declaration order.  With guard A (unconditional, appends
"A") declared before guard B (on-failure, appends "B"), both constructed at
depth `N`, and the scope left by a failure at depth `N + 1`, the log is
`["B", "A"]`. -/
theorem guards_fire_in_reverse_declaration_order {E V : Type}
    (declared : List (Guard E V)) (pending : Option E) (depth : Int) (w : World V) :
    (∃ delta, (exit_scope declared pending depth w).world.invoked = w.invoked ++ delta ∧
      delta.Sublist (declared.map fun g => g.cell.id).reverse) ∧
    ((∀ g ∈ declared, ∀ args m, (g.cell.fn.body args m).2 = none) →
      (exit_scope declared pending depth w).world.invoked
        = w.invoked ++
            ((declared.filter fun g => g.fires depth).map fun g => g.cell.id).reverse) ∧
    (∀ (N : Int) (e : Nat),
      (exit_scope
          [Guard.construct .always (logging_base 1 "A") N,
           Guard.construct .on_failure (logging_base 2 "B") N]
          (some e) (N + 1) empty_log).world.mem 0 = ["B", "A"] ∧
      (exit_scope
          [Guard.construct .always (logging_base 1 "A") N,
           Guard.construct .on_failure (logging_base 2 "B") N]
          (some e) (N + 1) empty_log).world.invoked = [2, 1]) := by
  refine ⟨?_, fun hn => ?_, fun N e => ?_⟩
  · obtain ⟨delta, h1, h2⟩ := destroy_all_sublist declared.reverse pending depth w
    refine ⟨delta, h1, ?_⟩
    rw [← List.map_reverse]
    exact h2
  · have hn1 : ∀ g ∈ declared.reverse, ∀ args m, (g.cell.fn.body args m).2 = none :=
      fun g hg => hn g (List.mem_reverse.mp hg)
    have := (destroy_all_of_no_raise declared.reverse hn1 pending depth w).1
    unfold exit_scope
    rw [this, List.filter_reverse, List.map_reverse]
  · have hgt : N + 1 > N := by omega
    simp [exit_scope, destroy_all, guard_destroy_eq, Guard.construct, Guard.fires,
      Guard.cell, scope_guard.construct, scope_guard_failure.construct, BOOST_UNLIKELY,
      hgt, callback_call_eq, logging_base, append_label, Callable.invoke,
      enforce_noexcept, Outcome.world, empty_log]

/-- C6, on a concrete scope whose callables do not throw: a success guard
(cell 1), a failure guard (cell 2) and an unconditional guard (cell 3), all
constructed at depth 0, left normally at depth 0: cells 3 and 1 are invoked,
in this order. -/
theorem guards_fire_in_reverse_declaration_order_witness :
    (exit_scope
        [Guard.construct .on_success (logging_base 1 "S") 0,
         Guard.construct .on_failure (logging_base 2 "F") 0,
         Guard.construct .always (logging_base 3 "A") 0]
        none 0 empty_log).world.invoked = [] ++ [3, 1] :=
  (guards_fire_in_reverse_declaration_order
      [Guard.construct .on_success (logging_base 1 "S") 0,
       Guard.construct .on_failure (logging_base 2 "F") 0,
       Guard.construct .always (logging_base 3 "A") 0]
      none 0 empty_log).2.1
    (by
      intro g hg args m
      simp only [List.mem_cons, List.mem_singleton, List.not_mem_nil, or_false] at hg
      rcases hg with h | h | h <;> subst h <;> rfl)

/-- C7: a guard of any kind, constructed at any depth and destroyed once at any
depth, invokes its action at most once (the trace gains its cell once or not
at all); and when one failure unwinds a stack of nested scopes whose guards
are distinct objects, every guard of every scope is invoked at most once. -/
theorem action_invoked_at_most_once {E V : Type} (k : Kind) (b : base E V)
    (N M : Int) (w : World V) :
    (((Guard.construct k b N).destroy M w).fired w b.callback.id ∨
      ((Guard.construct k b N).destroy M w).quiet w) ∧
    calls_between w ((Guard.construct k b N).destroy M w).world b.callback.id ≤ 1 ∧
    (∀ (scopes : List (List (Guard E V))) (e : E) (depth : Int),
      (scopes.flatten.map fun g => g.cell.id).Nodup →
      ∀ g ∈ scopes.flatten,
        calls_between w (unwind scopes e depth w).world g.cell.id ≤ 1) := by
  have hi := guard_destroy_invoked (Guard.construct k b N) M w
  rw [guard_construct_cell] at hi
  refine ⟨?_, ?_, fun scopes e depth hnd g _ => ?_⟩
  · cases hf : (Guard.construct k b N).fires M
    · right
      rw [hf] at hi
      simpa [Outcome.quiet] using hi
    · left
      rw [hf] at hi
      simpa [Outcome.fired] using hi
  · unfold calls_between
    rw [hi, List.count_append]
    cases (Guard.construct k b N).fires M <;> simp
  · obtain ⟨delta, h1, h2⟩ := unwind_sublist scopes e depth w
    unfold calls_between
    rw [h1, List.count_append]
    have hc := h2.count_le g.cell.id
    have hp := (unwind_order_perm scopes).count_eq g.cell.id
    have hn := List.nodup_iff_count_le_one.mp hnd g.cell.id
    omega

/-- C7, on a concrete stack: an inner scope with a failure guard (cell 2,
declared after a success guard, cell 1) inside an outer scope with an
unconditional guard (cell 3), all constructed at depth 0 and unwound by one
failure at depth 1; cell 2 is invoked at most once. -/
theorem action_invoked_at_most_once_witness :
    calls_between empty_log
      (unwind
        [[Guard.construct .on_success (logging_base 1 "S") 0,
          Guard.construct .on_failure (logging_base 2 "F") 0],
         [Guard.construct .always (logging_base 3 "A") 0]]
        9 1 empty_log).world 2 ≤ 1 :=
  (action_invoked_at_most_once .always (logging_base 0 "") 0 0 empty_log).2.2
    [[Guard.construct .on_success (logging_base 1 "S") 0,
      Guard.construct .on_failure (logging_base 2 "F") 0],
     [Guard.construct .always (logging_base 3 "A") 0]]
    9 1 (by decide)
    (Guard.construct .on_failure (logging_base 2 "F") 0)
    (by simp)

end boost
